import Mathlib

/-!
Verification of the post-quantum secure wire protocol of the hack4safety
repository.  The definitions below are a shallow embedding of
`app/pqc/pqcrypto_layer.py` and `app/pqc/secure_server.py` (the mock PQC
layer and the `SecureWireServer` class).

Modelling conventions:
* byte strings are `List Nat` (each entry one byte);
* Python `str` values recovered from UTF-8 decoding are modelled as their
  lists of Unicode code points;
* every call that draws randomness (`qrandom_key_bytes`,
  `secrets.randbelow`) takes the drawn value as an explicit argument, so
  all definitions are pure and executable;
* external cryptographic primitives that the source merely calls
  (`hashlib.sha256`, `AESGCM` of the `cryptography` package) are modelled
  from the spec as idealized executable functions, see their doc comments;
* fallible Python code (raised exceptions caught by handlers) is modelled
  with `Option`.
-/

/-- Byte strings of the wire protocol, one `Nat` per byte. -/
abbrev Bytes := List Nat

/-- Value of one hexadecimal digit character, `none` for non-hex characters.
Models the digit handling of Python `bytes.fromhex`. -/
def hexDigitVal (c : Char) : Option Nat :=
  if '0' ≤ c ∧ c ≤ '9' then some (c.toNat - 48)
  else if 'a' ≤ c ∧ c ≤ 'f' then some (c.toNat - 87)
  else if 'A' ≤ c ∧ c ≤ 'F' then some (c.toNat - 55)
  else none

/-- Decode a hex character list two digits at a time; odd length or a
non-hex character fails, as `bytes.fromhex` raises `ValueError` there. -/
def hexDecodeChars : List Char → Option Bytes
  | [] => some []
  | [_] => none
  | c1 :: c2 :: rest =>
    match hexDigitVal c1, hexDigitVal c2, hexDecodeChars rest with
    | some h, some low, some bs => some ((16 * h + low) :: bs)
    | _, _, _ => none

/-- Model of Python `bytes.fromhex` (whitespace skipping is not modelled;
no claim depends on it). -/
def hexDecode (s : String) : Option Bytes :=
  hexDecodeChars s.data

/-- Lower-case hex digit character for a value below 16. -/
def hexChar (n : Nat) : Char :=
  Char.ofNat (if n < 10 then 48 + n else 87 + n)

/-- Model of Python `bytes.hex`: lower-case two-digit encoding of each byte. -/
def hexEncode (bs : Bytes) : String :=
  String.mk ((bs.map fun b => [hexChar (b / 16), hexChar (b % 16)]).flatten)

/-- Accumulating decimal parser over characters; fails on a non-digit. -/
def parseDigitsAux : List Char → Nat → Option Nat
  | [], acc => some acc
  | c :: rest, acc =>
    if '0' ≤ c ∧ c ≤ '9' then parseDigitsAux rest (acc * 10 + (c.toNat - 48))
    else none

/-- Nonempty all-digit character list to its decimal value. -/
def parseDigits : List Char → Option Nat
  | [] => none
  | l => parseDigitsAux l 0

/-- Model of Python `int(str)` on decimal literals: optional sign followed
by at least one digit (whitespace stripping and underscore grouping are
not modelled; no claim depends on them).  `none` models the raised
`ValueError`. -/
def parseInt (s : String) : Option Int :=
  match s.data with
  | '-' :: rest => (parseDigits rest).map fun n => -(n : Int)
  | '+' :: rest => (parseDigits rest).map fun n => (n : Int)
  | l => (parseDigits l).map fun n => (n : Int)

/-- UTF-8 encoding of one Unicode code point. -/
def utf8EncodeCp (c : Nat) : Bytes :=
  if c < 0x80 then [c]
  else if c < 0x800 then [0xC0 + c / 64, 0x80 + c % 64]
  else if c < 0x10000 then [0xE0 + c / 4096, 0x80 + (c / 64) % 64, 0x80 + c % 64]
  else [0xF0 + c / 262144, 0x80 + (c / 4096) % 64, 0x80 + (c / 64) % 64, 0x80 + c % 64]

/-- Model of Python `str.encode("utf-8")`. -/
def utf8EncodeStr (s : String) : Bytes :=
  (s.data.map fun c => utf8EncodeCp c.toNat).flatten

/-- Whether a byte is a UTF-8 continuation byte (`0x80`..`0xBF`). -/
def utf8Cont (b : Nat) : Bool :=
  decide (0x80 ≤ b ∧ b ≤ 0xBF)

/-- Admissible second byte of a three-byte UTF-8 sequence (strict ranges,
rejecting overlong forms and surrogates, as Python's strict decoder does). -/
def utf8Cond3 (b1 b2 : Nat) : Bool :=
  if b1 = 0xE0 then decide (0xA0 ≤ b2 ∧ b2 ≤ 0xBF)
  else if b1 = 0xED then decide (0x80 ≤ b2 ∧ b2 ≤ 0x9F)
  else utf8Cont b2

/-- Admissible second byte of a four-byte UTF-8 sequence (strict ranges). -/
def utf8Cond4 (b1 b2 : Nat) : Bool :=
  if b1 = 0xF0 then decide (0x90 ≤ b2 ∧ b2 ≤ 0xBF)
  else if b1 = 0xF4 then decide (0x80 ≤ b2 ∧ b2 ≤ 0x8F)
  else utf8Cont b2

/-- Model of Python `bytes.decode("utf-8")`: strict UTF-8 decoding to the
list of code points, `none` models the raised `UnicodeDecodeError`. -/
def utf8Decode : List Nat → Option (List Nat)
  | [] => some []
  | b1 :: t1 =>
    if b1 ≤ 0x7F then (utf8Decode t1).map (b1 :: ·)
    else if b1 ≤ 0xC1 then none
    else if b1 ≤ 0xDF then
      match t1 with
      | b2 :: t2 =>
        if utf8Cont b2 then (utf8Decode t2).map (((b1 - 0xC0) * 64 + (b2 - 0x80)) :: ·)
        else none
      | [] => none
    else if b1 ≤ 0xEF then
      match t1 with
      | b2 :: b3 :: t3 =>
        if utf8Cond3 b1 b2 && utf8Cont b3 then
          (utf8Decode t3).map (((b1 - 0xE0) * 4096 + (b2 - 0x80) * 64 + (b3 - 0x80)) :: ·)
        else none
      | _ => none
    else if b1 ≤ 0xF4 then
      match t1 with
      | b2 :: b3 :: b4 :: t4 =>
        if utf8Cond4 b1 b2 && utf8Cont b3 && utf8Cont b4 then
          (utf8Decode t4).map
            (((b1 - 0xF0) * 262144 + (b2 - 0x80) * 4096 + (b3 - 0x80) * 64 + (b4 - 0x80)) :: ·)
        else none
      | _ => none
    else none

/-- Length-prefixed encoding of a byte string, the building block of the
idealized authentication tag below. -/
def lenPref (xs : Bytes) : Bytes :=
  xs.length :: xs

/-- Modelled from the spec: the AES-GCM authentication tag.  The real tag
is a cryptographic MAC over (key, nonce, associated data, plaintext); the
spec (§4.3, glossary) requires decryption to fail closed on any tag
mismatch, i.e. the tag authenticates all four components.  The external
primitive is idealized as an injective encoding of the four components. -/
def mkTag (key nonce aad body : Bytes) : Bytes :=
  lenPref key ++ (lenPref nonce ++ (lenPref aad ++ lenPref body))

/-- Modelled from the spec: `AESGCM(key).encrypt(nonce, plaintext, aad)` of
the external `cryptography` package — authenticated encryption whose output
(`ciphertext` inclusive of tag) binds key, nonce, plaintext and AAD. -/
def aesgcm_encrypt (key nonce plaintext aad : Bytes) : Bytes :=
  lenPref plaintext ++ mkTag key nonce aad plaintext

/-- Modelled from the spec: `AESGCM(key).decrypt(nonce, ct, aad)` of the
external `cryptography` package — returns the plaintext when the tag
authenticates under the same key, nonce and AAD, and fails closed
(`InvalidTag`, modelled as `none`) otherwise. -/
def aesgcm_decrypt (key nonce ct aad : Bytes) : Option Bytes :=
  match ct with
  | [] => none
  | l :: rest =>
    if l ≤ rest.length ∧ rest.drop l = mkTag key nonce aad (rest.take l) then
      some (rest.take l)
    else none

/-- Modelled from the spec: `hashlib.sha256(b).digest()[:KYBER_SYM_KEY_SIZE]`.
The digest is 32 bytes and `KYBER_SYM_KEY_SIZE = 32`, so the truncation is
the identity; the external hash is idealized as an injective deterministic
function of its input, which is all the source relies on. -/
def sha256_trunc32 (b : Bytes) : Bytes :=
  b.length :: b

/-- Mock size constant from `pqcrypto_layer.py`. -/
def KYBER_SYM_KEY_SIZE : Nat := 32

/-- Mock size constant from `pqcrypto_layer.py`. -/
def AES_GCM_NONCE_SIZE : Nat := 12

/-- Embedding of `kyber_generate_keypair`: both halves are fresh random
bytes (`qrandom_key_bytes`), passed here as explicit entropy arguments. -/
def kyber_generate_keypair (pkEntropy skEntropy : Bytes) : Bytes × Bytes :=
  (pkEntropy, skEntropy)

/-- Embedding of `kyber_encapsulate` (pqcrypto_layer.py lines 41-57): the
ciphertext blob is the fresh random draw, but the shared secret is derived
deterministically from the hash of the public key ("MOCK FIX" in source). -/
def kyber_encapsulate (public_key : Bytes) (ctEntropy : Bytes) : Bytes × Bytes :=
  (ctEntropy, sha256_trunc32 public_key)

/-- Embedding of `dilithium_generate_keypair`: two fresh random draws. -/
def dilithium_generate_keypair (pkEntropy skEntropy : Bytes) : Bytes × Bytes :=
  (pkEntropy, skEntropy)

/-- Embedding of `dilithium_sign` (pqcrypto_layer.py lines 66-68): the mock
returns `qrandom_key_bytes(DILITHIUM_SIG_SIZE)`, i.e. the fresh random draw,
ignoring both the secret key and the message. -/
def dilithium_sign (secret_key message : Bytes) (sigEntropy : Bytes) : Bytes :=
  sigEntropy

/-- Embedding of `dilithium_verify` (pqcrypto_layer.py lines 71-74): the
mock returns `secrets.randbelow(1000) != 0`, ignoring key, message and
signature; `draw` is the sampled random value. -/
def dilithium_verify (public_key message signature : Bytes) (draw : Nat) : Bool :=
  decide (draw % 1000 ≠ 0)

/-- The `{kem_ciphertext, aes_nonce, encrypted_data_with_tag}` dictionary
passed between `encrypt_payload_with_kem` and `decrypt_payload_with_kem`. -/
structure EncryptedBlob where
  kem_ciphertext : Bytes
  aes_nonce : Bytes
  encrypted_data_with_tag : Bytes
deriving DecidableEq, Repr

/-- Embedding of `encrypt_payload_with_kem` (pqcrypto_layer.py lines 80-93):
Kyber encapsulation followed by AES-GCM under a fresh 12-byte nonce
(`kemEntropy`, `nonceEntropy` are the two random draws). -/
def encrypt_payload_with_kem (server_pk plaintext_bytes aad : Bytes)
    (kemEntropy nonceEntropy : Bytes) : EncryptedBlob :=
  let ks := kyber_encapsulate server_pk kemEntropy
  let nonce := nonceEntropy
  { kem_ciphertext := ks.1
    aes_nonce := nonce
    encrypted_data_with_tag := aesgcm_encrypt ks.2 nonce plaintext_bytes aad }

/-- Embedding of `decrypt_payload_with_kem` (pqcrypto_layer.py lines
96-128): the shared key is recovered from the hash of `server_pk` alone
(`server_sk` is unused, as the source comment admits); every exception of
the AES-GCM step is caught and turned into `None`. -/
def decrypt_payload_with_kem (server_pk server_sk : Bytes)
    (encrypted_blob : EncryptedBlob) (aad : Bytes) : Option Bytes :=
  let shared_key_recovered := sha256_trunc32 server_pk
  aesgcm_decrypt shared_key_recovered encrypted_blob.aes_nonce
    encrypted_blob.encrypted_data_with_tag aad

/-- Embedding of `sign_and_package_message`: the original message together
with the (mock, random) Dilithium signature. -/
def sign_and_package_message (agent_sk message : Bytes) (sigEntropy : Bytes) :
    Bytes × Bytes :=
  (message, dilithium_sign agent_sk message sigEntropy)

/-- Embedding of `verify_packaged_message` (pqcrypto_layer.py lines
140-165): hex-decode the wire signature (invalid hex gives `(None, False)`
without raising), then run the mock Dilithium verification. -/
def verify_packaged_message (agent_pk : Bytes) (message : Bytes)
    (signature_hex : String) (draw : Nat) : Option Bytes × Bool :=
  match hexDecode signature_hex with
  | none => (none, false)
  | some signature_bytes =>
    if dilithium_verify agent_pk message signature_bytes draw then (some message, true)
    else (none, false)

/-- One entry of `SecureWireServer.audit_log` (secure_server.py lines
146-152).  The wall-clock `processing_time_ms` field is outside the
embedding and omitted. -/
structure AuditEntry where
  agent_id : String
  key_id : Nat
  verified : Bool
  payload_size : Nat
deriving DecidableEq, Repr

/-- The mutable state of `SecureWireServer`: current key id, Kyber
keypair, registered-agent registry and audit log.  The registry dictionary
is an association list whose most recent insertion wins on lookup. -/
structure ServerState where
  key_id : Nat
  server_pk : Bytes
  server_sk : Bytes
  registered_agents : List (String × Bytes)
  audit_log : List AuditEntry
deriving DecidableEq, Repr

/-- Embedding of `SecureWireServer.__init__`: key id 1, a fresh Kyber
keypair from the given entropy, empty registry and audit log. -/
def ServerState.init (pkEntropy skEntropy : Bytes) : ServerState :=
  let kp := kyber_generate_keypair pkEntropy skEntropy
  { key_id := 1
    server_pk := kp.1
    server_sk := kp.2
    registered_agents := []
    audit_log := [] }

/-- Dictionary lookup in the agent registry (`agent_id in/[] dict`). -/
def lookupAgent (registry : List (String × Bytes)) (agent_id : String) : Option Bytes :=
  (registry.find? fun e => decide (e.1 = agent_id)).map (·.2)

/-- Embedding of `SecureWireServer.get_server_public_key`. -/
def get_server_public_key (s : ServerState) : Bytes × Nat :=
  (s.server_pk, s.key_id)

/-- Embedding of `SecureWireServer.rotate_keys` (secure_server.py lines
38-43): increment the key id, replace the keypair with a fresh one, return
the new public key and key id. -/
def rotate_keys (s : ServerState) (pkEntropy skEntropy : Bytes) :
    ServerState × (Bytes × Nat) :=
  let kp := kyber_generate_keypair pkEntropy skEntropy
  let s2 := { s with key_id := s.key_id + 1, server_pk := kp.1, server_sk := kp.2 }
  (s2, (s2.server_pk, s2.key_id))

/-- Embedding of `SecureWireServer.register_agent`: hex-decode the
Dilithium public key and upsert it; invalid hex returns `False`. -/
def register_agent (s : ServerState) (agent_id : String)
    (dilithium_pk_hex : String) : ServerState × Bool :=
  match hexDecode dilithium_pk_hex with
  | some dilithium_pk =>
    ({ s with registered_agents := (agent_id, dilithium_pk) :: s.registered_agents }, true)
  | none => (s, false)

/-- The inbound wire dictionary consumed by `process_secure_message`; a
`none` field models an absent dictionary key (`dict.get` / `KeyError`). -/
structure SecurePackage where
  agent_id : Option String
  key_id : Option String
  kem_ciphertext : Option String
  aes_nonce : Option String
  encrypted_data_with_tag : Option String
  signature : Option String
deriving DecidableEq, Repr

/-- The AAD reconstructed by the server (secure_server.py line 92):
`f"AGENT:{agent_id}-KEYID:{package_key_id_str}".encode("utf-8")`. -/
def server_aad (agent_id key_id_str : String) : Bytes :=
  utf8EncodeStr ("AGENT:" ++ agent_id ++ "-KEYID:" ++ key_id_str)

/-- Embedding of `SecureWireServer.process_secure_message` (secure_server.py
lines 55-162).  `draw` is the random value sampled by the mock Dilithium
verification.  The returned state records the audit-log append performed on
the verified path; every caught exception (missing dictionary key, invalid
hex, UTF-8 decode error) yields `(None, False)` with the state unchanged,
except that the audit append precedes the UTF-8 decode in the source and
therefore survives a decode failure. -/
def process_secure_message (s : ServerState) (pkg : SecurePackage) (draw : Nat) :
    ServerState × (Option (List Nat) × Bool) :=
  match pkg.agent_id, pkg.key_id with
  | some agent_id, some key_id_str =>
    if agent_id = "" ∨ key_id_str = "" then (s, (none, false))
    else
      match lookupAgent s.registered_agents agent_id with
      | none => (s, (none, false))
      | some agent_pk =>
        match parseInt key_id_str with
        | none => (s, (none, false))
        | some package_key_id_int =>
          if package_key_id_int ≠ (s.key_id : Int) then (s, (none, false))
          else
            match pkg.kem_ciphertext, pkg.aes_nonce, pkg.encrypted_data_with_tag,
                pkg.signature with
            | some kem_hex, some nonce_hex, some ct_hex, some sig_hex =>
              match hexDecode kem_hex, hexDecode nonce_hex, hexDecode ct_hex with
              | some kem_ct, some nonce_b, some ct_b =>
                match decrypt_payload_with_kem s.server_pk s.server_sk
                    ⟨kem_ct, nonce_b, ct_b⟩ (server_aad agent_id key_id_str) with
                | none => (s, (none, false))
                | some signed_message_bytes =>
                  match verify_packaged_message agent_pk signed_message_bytes sig_hex draw with
                  | (final_message_bytes, is_verified) =>
                    if is_verified then
                      let payload := final_message_bytes.getD []
                      let s2 := { s with audit_log := s.audit_log ++
                        [⟨agent_id, s.key_id, is_verified, payload.length⟩] }
                      match utf8Decode payload with
                      | none => (s2, (none, false))
                      | some cps => (s2, (some cps, is_verified))
                    else (s, (none, is_verified))
              | _, _, _ => (s, (none, false))
            | _, _, _, _ => (s, (none, false))
  | _, _ => (s, (none, false))

/-- Modelled from the spec: the AAD constructed by `secure_agent.py` (lines
62-68) is the map `{agent_id, key_id, ts, msg_id}`; the encryption layer it
is passed to (the four-argument `encrypt_payload_with_kem` imported by
`secure_agent.py`) is not in the source tree, and per the spec serializes
the map deterministically, modelled as compact JSON in insertion order. -/
def agent_aad_serialized (agent_id : String) (key_id : Int) (ts : Nat)
    (msg_id : String) : Bytes :=
  utf8EncodeStr ("\x7b\"agent_id\":\"" ++ agent_id ++ "\",\"key_id\":" ++
    toString key_id ++ ",\"ts\":" ++ toString ts ++ ",\"msg_id\":\"" ++
    msg_id ++ "\"\x7d")

/-- Number of positions at which two byte strings disagree (up to the
shorter length). -/
def diffCount (a b : Bytes) : Nat :=
  (a.zip b).countP fun p => decide (p.1 ≠ p.2)

/-- Residual computation of `process_secure_message` once the validation
gates (field presence, registration, key id equality, hex decoding) have
passed; used to state pipeline lemmas. -/
def processAfterGates (s : ServerState) (agent_id key_id_str : String)
    (agent_pk kem_ct nonce_b ct_b : Bytes) (sig_hex : String) (draw : Nat) :
    ServerState × (Option (List Nat) × Bool) :=
  match decrypt_payload_with_kem s.server_pk s.server_sk
      ⟨kem_ct, nonce_b, ct_b⟩ (server_aad agent_id key_id_str) with
  | none => (s, (none, false))
  | some signed_message_bytes =>
    match verify_packaged_message agent_pk signed_message_bytes sig_hex draw with
    | (final_message_bytes, is_verified) =>
      if is_verified then
        let payload := final_message_bytes.getD []
        let s2 := { s with audit_log := s.audit_log ++
          [⟨agent_id, s.key_id, is_verified, payload.length⟩] }
        match utf8Decode payload with
        | none => (s2, (none, false))
        | some cps => (s2, (some cps, is_verified))
      else (s, (none, is_verified))

/-- One administrative or processing step of the secure channel server
(the operations that may change state). -/
inductive ServerStep : ServerState → ServerState → Prop
  | rotate (s : ServerState) (pkEntropy skEntropy : Bytes) :
      ServerStep s (rotate_keys s pkEntropy skEntropy).1
  | register (s : ServerState) (agent_id dilithium_pk_hex : String) :
      ServerStep s (register_agent s agent_id dilithium_pk_hex).1
  | process (s : ServerState) (pkg : SecurePackage) (draw : Nat) :
      ServerStep s (process_secure_message s pkg draw).1

/-- Server states reachable from initialization by the server operations. -/
inductive ServerReachable : ServerState → Prop
  | init (pkEntropy skEntropy : Bytes) :
      ServerReachable (ServerState.init pkEntropy skEntropy)
  | step {s s2 : ServerState} :
      ServerReachable s → ServerStep s s2 → ServerReachable s2

/-- Concrete server public key used by the witness scenarios below. -/
def wPk : Bytes := [1]

/-- Concrete server state: key id 1, keypair `([1], [2])`, one registered
agent `"A"` with signature public key `[3]`, empty audit log. -/
def wState : ServerState :=
  { key_id := 1, server_pk := wPk, server_sk := [2],
    registered_agents := [("A", [3])], audit_log := [] }

/-- The AAD the server reconstructs for agent `"A"` under key id 1. -/
def wAad : Bytes := server_aad "A" "1"

/-- The symmetric key the mock derives for the witness server. -/
def wKey : Bytes := sha256_trunc32 wPk

/-- Honest ciphertext: the plaintext `"hi"` ([104, 105]) encrypted under
the witness key, nonce `[7]` and the server-side AAD. -/
def wCt : Bytes := aesgcm_encrypt wKey [7] [104, 105] wAad

/-- An honestly assembled wire package for agent `"A"` and key id 1. -/
def wPkgHonest : SecurePackage :=
  { agent_id := some "A", key_id := some "1",
    kem_ciphertext := some (hexEncode [9]),
    aes_nonce := some (hexEncode [7]),
    encrypted_data_with_tag := some (hexEncode wCt),
    signature := some (hexEncode [4]) }

/-- The honest package resubmitted by an unregistered agent id. -/
def wPkgUnknown : SecurePackage := { wPkgHonest with agent_id := some "B" }

/-- The honest package with one ciphertext byte changed (104 to 9). -/
def wPkgTampered : SecurePackage :=
  { wPkgHonest with encrypted_data_with_tag := some (hexEncode (wCt.set 1 9)) }

/-- The honest package with its agent id field removed. -/
def wPkgNoAgent : SecurePackage := { wPkgHonest with agent_id := none }

/-- Ciphertext encrypted under the agent-side serialized AAD map instead
of the server-side flat string. -/
def wCtAgentAad : Bytes :=
  aesgcm_encrypt wKey [7] [104, 105]
    (agent_aad_serialized "A" 1 1700000000 "00000000-0000-0000-0000-000000000000")

/-- The honest package whose ciphertext was bound to the agent-side AAD. -/
def wPkgAgentAad : SecurePackage :=
  { wPkgHonest with encrypted_data_with_tag := some (hexEncode wCtAgentAad) }

/-- Ciphertext bound to a divergent AAD `[0]`. -/
def wCtWrongAad : Bytes := aesgcm_encrypt wKey [7] [104, 105] [0]

/-- The honest package whose ciphertext was bound to the AAD `[0]`. -/
def wPkgWrongAad : SecurePackage :=
  { wPkgHonest with encrypted_data_with_tag := some (hexEncode wCtWrongAad) }

/-- Ciphertext of the non-UTF-8 plaintext `[255]` under the honest AAD. -/
def wCtFF : Bytes := aesgcm_encrypt wKey [7] [255] wAad

/-- The honest package carrying the non-UTF-8 plaintext `[255]`. -/
def wPkgFF : SecurePackage :=
  { wPkgHonest with encrypted_data_with_tag := some (hexEncode wCtFF) }

/-- Peeling one length-prefixed segment off equal concatenations: the
segments and the remainders agree. -/
theorem lenPref_append_inj {x s x' s' : Bytes}
    (h : lenPref x ++ s = lenPref x' ++ s') : x = x' ∧ s = s' := by
  simp only [lenPref, List.cons_append, List.cons.injEq] at h
  exact List.append_inj h.2 h.1

/-- The idealized authentication tag is injective in all four components. -/
theorem mkTag_inj {k n a b k' n' a' b' : Bytes}
    (h : mkTag k n a b = mkTag k' n' a' b') :
    k = k' ∧ n = n' ∧ a = a' ∧ b = b' := by
  unfold mkTag at h
  obtain ⟨hk, h⟩ := lenPref_append_inj h
  obtain ⟨hn, h⟩ := lenPref_append_inj h
  obtain ⟨ha, h⟩ := lenPref_append_inj h
  refine ⟨hk, hn, ha, ?_⟩
  obtain ⟨-, hb⟩ : b.length = b'.length ∧ b = b' := by
    simpa [lenPref, List.cons.injEq] using h
  exact hb

/-- AEAD round trip: decrypting an honest encryption under the same key,
nonce and AAD returns the plaintext. -/
theorem aesgcm_decrypt_encrypt (key nonce pt aad : Bytes) :
    aesgcm_decrypt key nonce (aesgcm_encrypt key nonce pt aad) aad = some pt := by
  simp [aesgcm_encrypt, aesgcm_decrypt, lenPref, List.cons_append,
    List.take_left, List.drop_left]

/-- AEAD soundness: the only byte strings that decrypt are honest
encryptions, and each decrypts to its own plaintext. -/
theorem aesgcm_decrypt_sound {key nonce ct aad pt : Bytes}
    (h : aesgcm_decrypt key nonce ct aad = some pt) :
    ct = aesgcm_encrypt key nonce pt aad := by
  match ct with
  | [] => simp [aesgcm_decrypt] at h
  | l :: rest =>
    by_cases hc : l ≤ rest.length ∧ rest.drop l = mkTag key nonce aad (rest.take l)
    · have hpt : rest.take l = pt := by
        simpa [aesgcm_decrypt, hc] using h
      have hlen : pt.length = l := by
        rw [← hpt, List.length_take]
        exact min_eq_left hc.1
      have hrest : rest = pt ++ mkTag key nonce aad pt := by
        conv_lhs => rw [← List.take_append_drop l rest]
        rw [hpt, hc.2, hpt]
      simp [aesgcm_encrypt, lenPref, List.cons_append, hlen, hrest]
    · simp [aesgcm_decrypt, hc] at h

/-- Decryption under a different AAD than the one bound at encryption
fails closed. -/
theorem aesgcm_decrypt_encrypt_ne_aad {key nonce pt aadE aadD : Bytes}
    (hne : aadD ≠ aadE) :
    aesgcm_decrypt key nonce (aesgcm_encrypt key nonce pt aadE) aadD = none := by
  cases hopt : aesgcm_decrypt key nonce (aesgcm_encrypt key nonce pt aadE) aadD with
  | none => rfl
  | some q =>
    exfalso
    have hs := aesgcm_decrypt_sound hopt
    obtain ⟨hpt, htag⟩ := lenPref_append_inj hs
    obtain ⟨-, -, ha, -⟩ := mkTag_inj htag
    exact hne ha.symm

/-- Decryption under a different nonce than the one bound at encryption
fails closed. -/
theorem aesgcm_decrypt_encrypt_ne_nonce {key nonceE nonceD pt aad : Bytes}
    (hne : nonceD ≠ nonceE) :
    aesgcm_decrypt key nonceD (aesgcm_encrypt key nonceE pt aad) aad = none := by
  cases hopt : aesgcm_decrypt key nonceD (aesgcm_encrypt key nonceE pt aad) aad with
  | none => rfl
  | some q =>
    exfalso
    have hs := aesgcm_decrypt_sound hopt
    obtain ⟨hpt, htag⟩ := lenPref_append_inj hs
    obtain ⟨-, hn, -, -⟩ := mkTag_inj htag
    exact hne hn.symm

theorem diffCount_self (a : Bytes) : diffCount a a = 0 := by
  induction a with
  | nil => rfl
  | cons x xs ih => simpa [diffCount, List.zip_cons_cons, List.countP_cons] using ih

theorem diffCount_cons (x y : Nat) (xs ys : Bytes) :
    diffCount (x :: xs) (y :: ys) = diffCount xs ys + if x ≠ y then 1 else 0 := by
  by_cases h : x = y <;> simp [diffCount, List.zip_cons_cons, List.countP_cons, h]

theorem diffCount_append {a b : Bytes} (c d : Bytes) (h : a.length = b.length) :
    diffCount (a ++ c) (b ++ d) = diffCount a b + diffCount c d := by
  simp [diffCount, List.zip_append h, List.countP_append]

theorem eq_of_diffCount_eq_zero : ∀ {a b : Bytes}, a.length = b.length →
    diffCount a b = 0 → a = b
  | [], [], _, _ => rfl
  | [], _ :: _, h, _ => by simp at h
  | _ :: _, [], h, _ => by simp at h
  | x :: xs, y :: ys, h, h0 => by
    rw [diffCount_cons] at h0
    have hxy : x = y := by
      by_contra hne
      simp [hne] at h0
    have hlen : xs.length = ys.length := by simpa using h
    have h0' : diffCount xs ys = 0 := by
      simpa [hxy] using h0
    rw [hxy, eq_of_diffCount_eq_zero hlen h0']

theorem diffCount_set : ∀ (a : Bytes) (i b : Nat), i < a.length →
    b ≠ a.getD i 0 → diffCount (a.set i b) a = 1
  | [], i, b, hi, _ => by simp at hi
  | x :: xs, 0, b, _, hb => by
    simp only [List.getD_cons_zero] at hb
    simp [List.set, diffCount_cons, diffCount_self, hb]
  | x :: xs, i + 1, b, hi, hb => by
    simp only [List.getD_cons_succ] at hb
    simp only [List.set, diffCount_cons, if_neg (by simp : ¬x ≠ x)]
    simpa using diffCount_set xs i b (by simpa using hi) hb

theorem length_aesgcm_encrypt (key nonce pt aad : Bytes) :
    (aesgcm_encrypt key nonce pt aad).length =
      2 * pt.length + (key.length + nonce.length + aad.length) + 5 := by
  simp [aesgcm_encrypt, mkTag, lenPref, List.length_append]
  omega

/-- Two honest encryptions of equal-length plaintexts under the same key,
nonce and AAD disagree at exactly twice as many positions as the
plaintexts do (each encoded plaintext occurs twice: as body and inside the
tag). -/
theorem diffCount_encrypt_encrypt {key nonce aad : Bytes} {q pt : Bytes}
    (hlen : q.length = pt.length) :
    diffCount (aesgcm_encrypt key nonce q aad) (aesgcm_encrypt key nonce pt aad) =
      2 * diffCount q pt := by
  simp only [aesgcm_encrypt, mkTag, lenPref, List.cons_append]
  rw [diffCount_cons, diffCount_append _ _ hlen,
    diffCount_cons, diffCount_append _ _ rfl,
    diffCount_cons, diffCount_append _ _ rfl,
    diffCount_cons, diffCount_append _ _ rfl,
    diffCount_cons, diffCount_self, diffCount_self, diffCount_self]
  simp [hlen]
  omega

/-- Changing any single byte of an honest AEAD ciphertext makes decryption
fail closed. -/
theorem aesgcm_decrypt_set {key nonce pt aad : Bytes} (i b : Nat)
    (hi : i < (aesgcm_encrypt key nonce pt aad).length)
    (hb : b ≠ (aesgcm_encrypt key nonce pt aad).getD i 0) :
    aesgcm_decrypt key nonce ((aesgcm_encrypt key nonce pt aad).set i b) aad = none := by
  cases hopt : aesgcm_decrypt key nonce ((aesgcm_encrypt key nonce pt aad).set i b) aad with
  | none => rfl
  | some q =>
    exfalso
    have hs := aesgcm_decrypt_sound hopt
    have hlen : q.length = pt.length := by
      have hl := congrArg List.length hs
      rw [List.length_set, length_aesgcm_encrypt, length_aesgcm_encrypt] at hl
      omega
    have h1 : diffCount ((aesgcm_encrypt key nonce pt aad).set i b)
        (aesgcm_encrypt key nonce pt aad) = 1 :=
      diffCount_set _ i b hi hb
    rw [hs, diffCount_encrypt_encrypt hlen] at h1
    omega

/-- Round trip of the composed wire functions: decrypting the blob produced
by `encrypt_payload_with_kem` under the same server keypair and AAD returns
the original plaintext. -/
theorem decrypt_encrypt_payload (server_pk server_sk pt aad kemEntropy nonceEntropy : Bytes) :
    decrypt_payload_with_kem server_pk server_sk
      (encrypt_payload_with_kem server_pk pt aad kemEntropy nonceEntropy) aad = some pt := by
  simp [decrypt_payload_with_kem, encrypt_payload_with_kem, kyber_encapsulate,
    aesgcm_decrypt_encrypt]

/-- Gate 1 of the pipeline: a package whose agent id is not registered is
rejected with `(None, False)` and unchanged state, whatever the
cryptographic fields and the verification randomness are — no decryption
is attempted. -/
theorem process_unknown_agent {s : ServerState} {pkg : SecurePackage} {draw : Nat}
    {agent_id : String}
    (ha : pkg.agent_id = some agent_id)
    (hreg : lookupAgent s.registered_agents agent_id = none) :
    process_secure_message s pkg draw = (s, (none, false)) := by
  cases hk : pkg.key_id with
  | none => simp [process_secure_message, ha, hk]
  | some kid =>
    rcases eq_or_ne agent_id "" with he | he
    · simp [process_secure_message, ha, hk, he]
    · rcases eq_or_ne kid "" with he2 | he2
      · simp [process_secure_message, ha, hk, he2]
      · simp [process_secure_message, ha, hk, he, he2, hreg]

/-- Gate 2 of the pipeline: a registered agent whose package carries a key
id different from the server's current key id is rejected with
`(None, False)` and unchanged state, before any decryption. -/
theorem process_key_id_mismatch {s : ServerState} {pkg : SecurePackage} {draw : Nat}
    {agent_id key_id_str : String} {agent_pk : Bytes} {n : Int}
    (ha : pkg.agent_id = some agent_id) (ha2 : agent_id ≠ "")
    (hk : pkg.key_id = some key_id_str) (hk2 : key_id_str ≠ "")
    (hreg : lookupAgent s.registered_agents agent_id = some agent_pk)
    (hpi : parseInt key_id_str = some n)
    (hne : n ≠ (s.key_id : Int)) :
    process_secure_message s pkg draw = (s, (none, false)) := by
  simp [process_secure_message, ha, ha2, hk, hk2, hreg, hpi, hne]

/-- Once all the validation gates pass, `process_secure_message` reduces to
the decrypt-verify-decode tail. -/
theorem process_gates_passed {s : ServerState} {pkg : SecurePackage} {draw : Nat}
    {agent_id key_id_str kem_hex nonce_hex ct_hex sig_hex : String}
    {agent_pk kem_ct nonce_b ct_b : Bytes}
    (ha : pkg.agent_id = some agent_id) (ha2 : agent_id ≠ "")
    (hk : pkg.key_id = some key_id_str) (hk2 : key_id_str ≠ "")
    (hreg : lookupAgent s.registered_agents agent_id = some agent_pk)
    (hpi : parseInt key_id_str = some (s.key_id : Int))
    (hkc : pkg.kem_ciphertext = some kem_hex)
    (hkcd : hexDecode kem_hex = some kem_ct)
    (hnc : pkg.aes_nonce = some nonce_hex)
    (hncd : hexDecode nonce_hex = some nonce_b)
    (hcc : pkg.encrypted_data_with_tag = some ct_hex)
    (hccd : hexDecode ct_hex = some ct_b)
    (hsg : pkg.signature = some sig_hex) :
    process_secure_message s pkg draw =
      processAfterGates s agent_id key_id_str agent_pk kem_ct nonce_b ct_b sig_hex draw := by
  simp only [process_secure_message, processAfterGates, ha, hk, hreg, hpi, hkc, hnc,
    hcc, hsg, hkcd, hncd, hccd, ha2, hk2, if_neg, if_false, ne_eq, not_true_eq_false,
    eq_self_iff_true, not_false_iff, or_self, ite_false, ite_true]

/-- Gate 3 of the pipeline: if the decapsulate-and-decrypt step fails, the
message is rejected with `(None, False)` and unchanged state, before
signature verification — whatever the signature and randomness are. -/
theorem processAfterGates_decrypt_fail {s : ServerState}
    {agent_id key_id_str sig_hex : String} {agent_pk kem_ct nonce_b ct_b : Bytes}
    {draw : Nat}
    (hdec : decrypt_payload_with_kem s.server_pk s.server_sk
      ⟨kem_ct, nonce_b, ct_b⟩ (server_aad agent_id key_id_str) = none) :
    processAfterGates s agent_id key_id_str agent_pk kem_ct nonce_b ct_b sig_hex draw =
      (s, (none, false)) := by
  simp [processAfterGates, hdec]

/-- Gate 4 of the pipeline: decryption succeeded but the (mock) signature
verification fails — the message is rejected with `(None, False)` and
unchanged state. -/
theorem processAfterGates_verify_fail {s : ServerState}
    {agent_id key_id_str sig_hex : String} {agent_pk kem_ct nonce_b ct_b : Bytes}
    {draw : Nat}
    (hdraw : draw % 1000 = 0) :
    processAfterGates s agent_id key_id_str agent_pk kem_ct nonce_b ct_b sig_hex draw =
      (s, (none, false)) := by
  unfold processAfterGates
  cases hdec : decrypt_payload_with_kem s.server_pk s.server_sk
      ⟨kem_ct, nonce_b, ct_b⟩ (server_aad agent_id key_id_str) with
  | none => rfl
  | some m =>
    cases hsig : hexDecode sig_hex with
    | none => simp [verify_packaged_message, hsig]
    | some sig_b => simp [verify_packaged_message, hsig, dilithium_verify, hdraw]

/-- All five gates pass and the recovered plaintext is valid UTF-8: the
plaintext (as the decoded string) is returned with `True`, and the audit
log is appended. -/
theorem processAfterGates_success {s : ServerState}
    {agent_id key_id_str sig_hex : String} {agent_pk kem_ct nonce_b ct_b : Bytes}
    {draw : Nat} {m sig_b cps : Bytes}
    (hdec : decrypt_payload_with_kem s.server_pk s.server_sk
      ⟨kem_ct, nonce_b, ct_b⟩ (server_aad agent_id key_id_str) = some m)
    (hsig : hexDecode sig_hex = some sig_b)
    (hdraw : draw % 1000 ≠ 0)
    (hut : utf8Decode m = some cps) :
    processAfterGates s agent_id key_id_str agent_pk kem_ct nonce_b ct_b sig_hex draw =
      ({ s with audit_log := s.audit_log ++ [⟨agent_id, s.key_id, true, m.length⟩] },
        (some cps, true)) := by
  simp [processAfterGates, hdec, verify_packaged_message, hsig, dilithium_verify, hdraw, hut]

/-- All gates pass but the recovered plaintext is not valid UTF-8: the
decode error is swallowed and `(None, False)` is returned, with the audit
entry (appended before the decode) kept in the state. -/
theorem processAfterGates_utf8_fail {s : ServerState}
    {agent_id key_id_str sig_hex : String} {agent_pk kem_ct nonce_b ct_b : Bytes}
    {draw : Nat} {m sig_b : Bytes}
    (hdec : decrypt_payload_with_kem s.server_pk s.server_sk
      ⟨kem_ct, nonce_b, ct_b⟩ (server_aad agent_id key_id_str) = some m)
    (hsig : hexDecode sig_hex = some sig_b)
    (hdraw : draw % 1000 ≠ 0)
    (hut : utf8Decode m = none) :
    processAfterGates s agent_id key_id_str agent_pk kem_ct nonce_b ct_b sig_hex draw =
      ({ s with audit_log := s.audit_log ++ [⟨agent_id, s.key_id, true, m.length⟩] },
        (none, false)) := by
  simp [processAfterGates, hdec, verify_packaged_message, hsig, dilithium_verify, hdraw, hut]

/-- Frame property of `process_secure_message`: key id, the KEM keypair
and the agent registry are never modified, on success as well as on every
failure path. -/
theorem process_preserves_core (s : ServerState) (pkg : SecurePackage) (draw : Nat) :
    (process_secure_message s pkg draw).1.key_id = s.key_id ∧
    (process_secure_message s pkg draw).1.server_pk = s.server_pk ∧
    (process_secure_message s pkg draw).1.server_sk = s.server_sk ∧
    (process_secure_message s pkg draw).1.registered_agents = s.registered_agents := by
  refine ⟨?_, ?_, ?_, ?_⟩ <;>
    (unfold process_secure_message; (repeat' split) <;>
      first | rfl | (dsimp only; split <;> rfl))

/-- The audit log after processing is unchanged on every unverified path
(whose result is then `(None, False)`), and is extended by exactly one
entry on the verified paths. -/
theorem process_result_audit (s : ServerState) (pkg : SecurePackage) (draw : Nat) :
    ((process_secure_message s pkg draw).1.audit_log = s.audit_log ∧
      (process_secure_message s pkg draw).2.2 = false) ∨
    ∃ e, (process_secure_message s pkg draw).1.audit_log = s.audit_log ++ [e] := by
  unfold process_secure_message
  (repeat' split) <;> first
    | exact Or.inl ⟨rfl, rfl⟩
    | exact Or.inr ⟨_, rfl⟩
    | exact Or.inl ⟨rfl, by simp_all⟩
    | (dsimp only; split <;> first
        | exact Or.inl ⟨rfl, rfl⟩
        | exact Or.inr ⟨_, rfl⟩)

/-- No server operation ever decreases the key id. -/
theorem serverStep_key_id_mono {s s2 : ServerState} (h : ServerStep s s2) :
    s.key_id ≤ s2.key_id := by
  cases h with
  | rotate pkEntropy skEntropy => simp [rotate_keys]
  | register agent_id hex =>
    unfold register_agent
    cases hexDecode hex <;> simp
  | process pkg draw => exact le_of_eq (process_preserves_core s pkg draw).1.symm

/-- Every reachable server state has a key id of at least 1. -/
theorem serverReachable_key_id_pos {s : ServerState} (h : ServerReachable s) :
    1 ≤ s.key_id := by
  induction h with
  | init pkEntropy skEntropy => exact le_refl 1
  | step hr hstep ih => exact le_trans ih (serverStep_key_id_mono hstep)

/-- C4 (code_bug): the spec requires `encapsulate` to return a fresh,
non-deterministic shared secret on every call; in the code the shared
secret is `sha256(public_key)[:32]`, a deterministic function of the
public key alone, identical across calls — only the ciphertext blob is a
fresh draw.  The first conjunct is the general law, the second evaluates
the code at the failing input (public key `[5]`, two calls with different
randomness). -/
theorem kyber_encapsulate_shared_secret_deterministic :
    (∀ (public_key ctEntropy1 ctEntropy2 : Bytes),
      (kyber_encapsulate public_key ctEntropy1).2 =
        (kyber_encapsulate public_key ctEntropy2).2) ∧
    (kyber_encapsulate [5] [1, 2]).2 = (kyber_encapsulate [5] [9, 9, 9]).2 ∧
    (kyber_encapsulate [5] [1, 2]).2 = sha256_trunc32 [5] ∧
    (kyber_encapsulate [5] [1, 2]).1 ≠ (kyber_encapsulate [5] [9, 9, 9]).1 :=
  ⟨fun _ _ _ => rfl, rfl, rfl, by decide⟩

/-- C5 (code_bug): the spec requires `verify(sign(sk, m), pk) = true` and
`false` after any single bit flip, never throwing; in the code
`dilithium_verify` is `secrets.randbelow(1000) != 0` — a coin flip
independent of key, message and signature (and `dilithium_sign` returns
fresh random bytes ignoring both arguments).  With draw 0 an honestly
signed message verifies `false`; with draw 1 a flipped message with an
arbitrary signature verifies `true`. -/
theorem dilithium_verify_independent_of_inputs :
    (∀ (pk1 m1 sig1 pk2 m2 sig2 : Bytes) (draw : Nat),
      dilithium_verify pk1 m1 sig1 draw = dilithium_verify pk2 m2 sig2 draw) ∧
    (∀ (secret_key message sigEntropy : Bytes),
      dilithium_sign secret_key message sigEntropy = sigEntropy) ∧
    dilithium_verify [1] [2] (dilithium_sign [3] [2] [7]) 0 = false ∧
    dilithium_verify [1] [2, 255] [9, 9] 1 = true :=
  ⟨fun _ _ _ _ _ _ _ => rfl, fun _ _ _ => rfl, by decide, by decide⟩

/-- C9 (confirmed): the result of `decrypt_payload_with_kem` is
independent of both the `server_sk` argument and the `kem_ciphertext`
field of the blob — with all other inputs equal the results coincide,
because the symmetric key is derived solely from the hash of
`server_pk`. -/
theorem decrypt_independent_of_sk_and_kem_ct
    (server_pk sk1 sk2 kc1 kc2 nonce_b ct_b aad : Bytes) :
    decrypt_payload_with_kem server_pk sk1 ⟨kc1, nonce_b, ct_b⟩ aad =
      decrypt_payload_with_kem server_pk sk2 ⟨kc2, nonce_b, ct_b⟩ aad := rfl

/-- C8 (confirmed): in every reachable state of the secure channel server
the key id is at least 1; it starts at 1 at initialization, no operation
decreases it, rotation is the only operation that changes it and it
increments it by exactly one, while registration and message processing
leave it unchanged. -/
theorem key_id_invariant :
    (∀ pkEntropy skEntropy : Bytes, (ServerState.init pkEntropy skEntropy).key_id = 1) ∧
    (∀ s : ServerState, ServerReachable s → 1 ≤ s.key_id) ∧
    (∀ s s2 : ServerState, ServerStep s s2 → s.key_id ≤ s2.key_id) ∧
    (∀ (s : ServerState) (pkEntropy skEntropy : Bytes),
      (rotate_keys s pkEntropy skEntropy).1.key_id = s.key_id + 1) ∧
    (∀ (s : ServerState) (agent_id dilithium_pk_hex : String),
      (register_agent s agent_id dilithium_pk_hex).1.key_id = s.key_id) ∧
    (∀ (s : ServerState) (pkg : SecurePackage) (draw : Nat),
      (process_secure_message s pkg draw).1.key_id = s.key_id) := by
  refine ⟨fun _ _ => rfl, fun s h => serverReachable_key_id_pos h,
    fun s s2 h => serverStep_key_id_mono h, fun _ _ _ => rfl, ?_,
    fun s pkg draw => (process_preserves_core s pkg draw).1⟩
  intro s agent_id hex
  unfold register_agent
  cases hexDecode hex <;> rfl

/-- Witness for `key_id_invariant` at a concrete instance: the freshly
initialized server has key id 1, which is at least 1 (reachability
hypothesis discharged with `ServerReachable.init`), and rotating it does
not decrease the key id (step hypothesis discharged with
`ServerStep.rotate`). -/
theorem key_id_invariant_witness :
    (ServerState.init [4] [5]).key_id = 1 ∧
    1 ≤ (ServerState.init [4] [5]).key_id ∧
    (ServerState.init [4] [5]).key_id ≤
      (rotate_keys (ServerState.init [4] [5]) [6] [7]).1.key_id :=
  ⟨key_id_invariant.1 [4] [5],
    key_id_invariant.2.1 _ (ServerReachable.init [4] [5]),
    key_id_invariant.2.2.1 _ _ (ServerStep.rotate _ [6] [7])⟩

/-- C3 (confirmed): a package built against the server's current key id n
(registered agent, otherwise arbitrary contents) is always rejected with
`(None, False)` once the server has rotated to key id n+1 — for every
ciphertext, signature and verification draw, so no decryption under the
new keypair can occur; and rotation discards the old keypair, replacing it
with the freshly generated one and incrementing the key id. -/
theorem stale_key_id_rejected_after_rotation
    (s : ServerState) (pkg : SecurePackage) (pkEntropy skEntropy : Bytes) (draw : Nat)
    (agent_id key_id_str : String) (agent_pk : Bytes)
    (ha : pkg.agent_id = some agent_id) (ha2 : agent_id ≠ "")
    (hk : pkg.key_id = some key_id_str) (hk2 : key_id_str ≠ "")
    (hreg : lookupAgent s.registered_agents agent_id = some agent_pk)
    (hpi : parseInt key_id_str = some (s.key_id : Int)) :
    process_secure_message (rotate_keys s pkEntropy skEntropy).1 pkg draw =
      ((rotate_keys s pkEntropy skEntropy).1, (none, false)) ∧
    (rotate_keys s pkEntropy skEntropy).1.key_id = s.key_id + 1 ∧
    (rotate_keys s pkEntropy skEntropy).1.server_pk = pkEntropy ∧
    (rotate_keys s pkEntropy skEntropy).1.server_sk = skEntropy := by
  refine ⟨?_, rfl, rfl, rfl⟩
  have hreg2 : lookupAgent (rotate_keys s pkEntropy skEntropy).1.registered_agents
      agent_id = some agent_pk := by
    simpa [rotate_keys, kyber_generate_keypair] using hreg
  have hne : (s.key_id : Int) ≠ (((rotate_keys s pkEntropy skEntropy).1.key_id : Nat) : Int) := by
    simp only [rotate_keys, kyber_generate_keypair]
    omega
  exact process_key_id_mismatch ha ha2 hk hk2 hreg2 hpi hne

/-- Witness for `stale_key_id_rejected_after_rotation`: the honest package
for key id 1 is rejected with `(None, False)` after the witness server
rotates to key id 2 with the fresh keypair `([8], [9])`. -/
theorem stale_key_id_rejected_after_rotation_witness :
    process_secure_message (rotate_keys wState [8] [9]).1 wPkgHonest 1 =
      ((rotate_keys wState [8] [9]).1, (none, false)) ∧
    (rotate_keys wState [8] [9]).1.key_id = wState.key_id + 1 ∧
    (rotate_keys wState [8] [9]).1.server_pk = [8] ∧
    (rotate_keys wState [8] [9]).1.server_sk = [9] :=
  stale_key_id_rejected_after_rotation wState wPkgHonest [8] [9] 1 "A" "1" [3]
    (by decide) (by decide) (by decide) (by decide) (by decide) (by decide)

/-- C6 (confirmed): AEAD round trip — decryption of an honest encryption
under the same key, nonce and AAD returns exactly the original plaintext,
and likewise for the composed KEM wire functions under the same server
keypair and AAD; changing the AAD or the nonce in any way, or changing any
single byte of the ciphertext-with-tag, makes decryption fail closed; and
decryption never silently returns a wrong plaintext — any ciphertext that
decrypts is the honest encryption of exactly the returned plaintext. -/
theorem aead_roundtrip_and_fail_closed (key nonce pt aad : Bytes) :
    (aesgcm_decrypt key nonce (aesgcm_encrypt key nonce pt aad) aad = some pt) ∧
    (∀ server_pk server_sk ptb aadb kemEntropy nonceEntropy : Bytes,
      decrypt_payload_with_kem server_pk server_sk
        (encrypt_payload_with_kem server_pk ptb aadb kemEntropy nonceEntropy) aadb =
          some ptb) ∧
    (∀ aad2 : Bytes, aad2 ≠ aad →
      aesgcm_decrypt key nonce (aesgcm_encrypt key nonce pt aad) aad2 = none) ∧
    (∀ nonce2 : Bytes, nonce2 ≠ nonce →
      aesgcm_decrypt key nonce2 (aesgcm_encrypt key nonce pt aad) aad = none) ∧
    (∀ i b : Nat, i < (aesgcm_encrypt key nonce pt aad).length →
      b ≠ (aesgcm_encrypt key nonce pt aad).getD i 0 →
      aesgcm_decrypt key nonce ((aesgcm_encrypt key nonce pt aad).set i b) aad = none) ∧
    (∀ ct q : Bytes, aesgcm_decrypt key nonce ct aad = some q →
      ct = aesgcm_encrypt key nonce q aad) :=
  ⟨aesgcm_decrypt_encrypt key nonce pt aad,
    fun server_pk server_sk ptb aadb kemEntropy nonceEntropy =>
      decrypt_encrypt_payload server_pk server_sk ptb aadb kemEntropy nonceEntropy,
    fun aad2 h => aesgcm_decrypt_encrypt_ne_aad h,
    fun nonce2 h => aesgcm_decrypt_encrypt_ne_nonce h,
    fun i b hi hb => aesgcm_decrypt_set i b hi hb,
    fun ct q h => aesgcm_decrypt_sound h⟩

/-- Witness for `aead_roundtrip_and_fail_closed` at key `[1]`, nonce `[2]`,
plaintext `[3, 4]`, AAD `[5]`: the round trip returns the plaintext, a
changed AAD `[6]`, a changed nonce `[9]` and a single changed ciphertext
byte all fail closed. -/
theorem aead_roundtrip_and_fail_closed_witness :
    aesgcm_decrypt [1] [2] (aesgcm_encrypt [1] [2] [3, 4] [5]) [5] = some [3, 4] ∧
    decrypt_payload_with_kem [1] [2]
      (encrypt_payload_with_kem [1] [3, 4] [5] [6] [2]) [5] = some [3, 4] ∧
    aesgcm_decrypt [1] [2] (aesgcm_encrypt [1] [2] [3, 4] [5]) [6] = none ∧
    aesgcm_decrypt [1] [9] (aesgcm_encrypt [1] [2] [3, 4] [5]) [5] = none ∧
    aesgcm_decrypt [1] [2] ((aesgcm_encrypt [1] [2] [3, 4] [5]).set 1 9) [5] = none := by
  have h := aead_roundtrip_and_fail_closed [1] [2] [3, 4] [5]
  exact ⟨h.1, h.2.1 [1] [2] [3, 4] [5] [6] [2], h.2.2.1 [6] (by decide),
    h.2.2.2.1 [9] (by decide), h.2.2.2.2.1 1 9 (by decide) (by decide)⟩

/-- C7 (counterexample): `process_secure_message` is not a pure function
of the state — on the witness server, processing the honest package
succeeds and leaves the server with a grown `audit_log`, so the resulting
state differs from the initial one. -/
theorem process_mutates_audit_log :
    (process_secure_message wState wPkgHonest 1).2 = (some [104, 105], true) ∧
    (process_secure_message wState wPkgHonest 1).1 ≠ wState ∧
    (process_secure_message wState wPkgHonest 1).1.audit_log ≠ wState.audit_log := by
  refine ⟨by decide, ?_, by decide⟩
  intro h
  exact absurd (congrArg ServerState.audit_log h) (by decide)

/-- C7 (amended): `process_secure_message` never modifies the key id, the
KEM keypair or the agent registry; the audit log is the sole exception —
it is unchanged on every path whose result is unverified (which then
returns `(None, False)`), and is extended by exactly one entry whenever
signature verification succeeds (even if the subsequent UTF-8 decode
fails). -/
theorem process_frame_except_audit (s : ServerState) (pkg : SecurePackage) (draw : Nat) :
    (process_secure_message s pkg draw).1.key_id = s.key_id ∧
    (process_secure_message s pkg draw).1.server_pk = s.server_pk ∧
    (process_secure_message s pkg draw).1.server_sk = s.server_sk ∧
    (process_secure_message s pkg draw).1.registered_agents = s.registered_agents ∧
    ((process_secure_message s pkg draw).1.audit_log = s.audit_log ∨
      ∃ e, (process_secure_message s pkg draw).1.audit_log = s.audit_log ++ [e]) ∧
    ((process_secure_message s pkg draw).2.2 = true →
      ∃ e, (process_secure_message s pkg draw).1.audit_log = s.audit_log ++ [e]) := by
  obtain ⟨h1, h2, h3, h4⟩ := process_preserves_core s pkg draw
  rcases process_result_audit s pkg draw with ⟨ha, hf⟩ | ⟨e, ha⟩
  · exact ⟨h1, h2, h3, h4, Or.inl ha, fun ht => absurd ht (by simp [hf])⟩
  · exact ⟨h1, h2, h3, h4, Or.inr ⟨e, ha⟩, fun _ => ⟨e, ha⟩⟩

/-- Witness for `process_frame_except_audit`: on the successful honest run
the key id is preserved and the audit log is extended by one entry (the
verified-result hypothesis discharged by computation). -/
theorem process_frame_except_audit_witness :
    (process_secure_message wState wPkgHonest 1).1.key_id = wState.key_id ∧
    ∃ e, (process_secure_message wState wPkgHonest 1).1.audit_log =
      wState.audit_log ++ [e] :=
  ⟨(process_frame_except_audit wState wPkgHonest 1).1,
    (process_frame_except_audit wState wPkgHonest 1).2.2.2.2.2 (by decide)⟩

/-- C1 (counterexample): the claimed five distinct failure kinds do not
exist — every failure of `process_secure_message` is the same value
`(None, False)`.  Concretely, on the witness server the honest package
succeeds, while the same package under an unregistered agent id and the
same package with one flipped ciphertext byte (an authentication failure)
both fail with results that are EQUAL, so the unknown-agent gate and the
decryption gate do not return distinct failure kinds. -/
theorem process_failure_kinds_not_distinct :
    (process_secure_message wState wPkgHonest 1).2 = (some [104, 105], true) ∧
    (process_secure_message wState wPkgUnknown 1).2 = (none, false) ∧
    (process_secure_message wState wPkgTampered 1).2 = (none, false) ∧
    (process_secure_message wState wPkgUnknown 1).2 =
      (process_secure_message wState wPkgTampered 1).2 := by
  decide

/-- C1 (amended): `process_secure_message` is a fail-fast pipeline whose
gates fire in this order — (1) missing or empty `agent_id`/`key_id`,
(2) unregistered agent (rejected for every content of the cryptographic
fields and every verification draw, so before any decryption),
(3) unparsable or mismatching key id, (4) AEAD decryption failure (in
particular any single flipped ciphertext byte, rejected for every
signature and every verification draw, so before the signature gate),
and plaintext is returned only when every gate passes — but every failing
gate returns the same `(None, False)` with unchanged state, not a distinct
failure kind. -/
theorem process_fail_fast_pipeline :
    (∀ (s : ServerState) (pkg : SecurePackage) (draw : Nat),
      (pkg.agent_id = none ∨ pkg.agent_id = some "" ∨ pkg.key_id = none ∨
        pkg.key_id = some "") →
      process_secure_message s pkg draw = (s, (none, false))) ∧
    (∀ (s : ServerState) (pkg : SecurePackage) (draw : Nat) (agent_id : String),
      pkg.agent_id = some agent_id →
      lookupAgent s.registered_agents agent_id = none →
      process_secure_message s pkg draw = (s, (none, false))) ∧
    (∀ (s : ServerState) (pkg : SecurePackage) (draw : Nat)
        (agent_id key_id_str : String) (agent_pk : Bytes) (n : Int),
      pkg.agent_id = some agent_id → agent_id ≠ "" →
      pkg.key_id = some key_id_str → key_id_str ≠ "" →
      lookupAgent s.registered_agents agent_id = some agent_pk →
      parseInt key_id_str = some n → n ≠ (s.key_id : Int) →
      process_secure_message s pkg draw = (s, (none, false))) ∧
    (∀ (s : ServerState) (pkg : SecurePackage) (draw : Nat)
        (agent_id key_id_str kem_hex nonce_hex ct_hex sig_hex : String)
        (agent_pk kem_ct nonce_b pt : Bytes) (i b : Nat),
      pkg.agent_id = some agent_id → agent_id ≠ "" →
      pkg.key_id = some key_id_str → key_id_str ≠ "" →
      lookupAgent s.registered_agents agent_id = some agent_pk →
      parseInt key_id_str = some (s.key_id : Int) →
      pkg.kem_ciphertext = some kem_hex → hexDecode kem_hex = some kem_ct →
      pkg.aes_nonce = some nonce_hex → hexDecode nonce_hex = some nonce_b →
      pkg.encrypted_data_with_tag = some ct_hex →
      hexDecode ct_hex = some ((aesgcm_encrypt (sha256_trunc32 s.server_pk) nonce_b pt
        (server_aad agent_id key_id_str)).set i b) →
      pkg.signature = some sig_hex →
      i < (aesgcm_encrypt (sha256_trunc32 s.server_pk) nonce_b pt
        (server_aad agent_id key_id_str)).length →
      b ≠ (aesgcm_encrypt (sha256_trunc32 s.server_pk) nonce_b pt
        (server_aad agent_id key_id_str)).getD i 0 →
      process_secure_message s pkg draw = (s, (none, false))) ∧
    (∀ (s : ServerState) (pkg : SecurePackage) (draw : Nat)
        (agent_id key_id_str kem_hex nonce_hex ct_hex sig_hex : String)
        (agent_pk kem_ct nonce_b pt sig_b cps : Bytes),
      pkg.agent_id = some agent_id → agent_id ≠ "" →
      pkg.key_id = some key_id_str → key_id_str ≠ "" →
      lookupAgent s.registered_agents agent_id = some agent_pk →
      parseInt key_id_str = some (s.key_id : Int) →
      pkg.kem_ciphertext = some kem_hex → hexDecode kem_hex = some kem_ct →
      pkg.aes_nonce = some nonce_hex → hexDecode nonce_hex = some nonce_b →
      pkg.encrypted_data_with_tag = some ct_hex →
      hexDecode ct_hex = some (aesgcm_encrypt (sha256_trunc32 s.server_pk) nonce_b pt
        (server_aad agent_id key_id_str)) →
      pkg.signature = some sig_hex → hexDecode sig_hex = some sig_b →
      draw % 1000 ≠ 0 → utf8Decode pt = some cps →
      process_secure_message s pkg draw =
        ({ s with audit_log := s.audit_log ++ [⟨agent_id, s.key_id, true, pt.length⟩] },
          (some cps, true))) := by
  refine ⟨?_, ?_, ?_, ?_, ?_⟩
  · intro s pkg draw h
    rcases h with h | h | h | h
    · cases hk : pkg.key_id <;> simp [process_secure_message, h, hk]
    · cases hk : pkg.key_id <;> simp [process_secure_message, h, hk]
    · cases ha : pkg.agent_id <;> simp [process_secure_message, h, ha]
    · cases ha : pkg.agent_id <;> simp [process_secure_message, h, ha]
  · intro s pkg draw agent_id ha hreg
    exact process_unknown_agent ha hreg
  · intro s pkg draw agent_id key_id_str agent_pk n ha ha2 hk hk2 hreg hpi hne
    exact process_key_id_mismatch ha ha2 hk hk2 hreg hpi hne
  · intro s pkg draw agent_id key_id_str kem_hex nonce_hex ct_hex sig_hex
      agent_pk kem_ct nonce_b pt i b ha ha2 hk hk2 hreg hpi hkc hkcd hnc hncd
      hcc hccd hsg hi hb
    rw [process_gates_passed ha ha2 hk hk2 hreg hpi hkc hkcd hnc hncd hcc hccd hsg]
    refine processAfterGates_decrypt_fail ?_
    simp only [decrypt_payload_with_kem]
    exact aesgcm_decrypt_set i b hi hb
  · intro s pkg draw agent_id key_id_str kem_hex nonce_hex ct_hex sig_hex
      agent_pk kem_ct nonce_b pt sig_b cps ha ha2 hk hk2 hreg hpi hkc hkcd hnc hncd
      hcc hccd hsg hsigd hdraw hut
    rw [process_gates_passed ha ha2 hk hk2 hreg hpi hkc hkcd hnc hncd hcc hccd hsg]
    refine processAfterGates_success ?_ hsigd hdraw hut
    simp [decrypt_payload_with_kem, aesgcm_decrypt_encrypt]

/-- Witness for `process_fail_fast_pipeline`: on the witness server the
package under the unregistered agent id `"B"` fails with `(None, False)`
(unknown-agent gate), and the honest package passes every gate, appending
one audit entry and returning the decoded plaintext `"hi"` with `True`. -/
theorem process_fail_fast_pipeline_witness :
    process_secure_message wState wPkgUnknown 1 = (wState, (none, false)) ∧
    process_secure_message wState wPkgHonest 1 =
      ({ wState with audit_log := wState.audit_log ++
          [⟨"A", wState.key_id, true, ([104, 105] : Bytes).length⟩] },
        (some [104, 105], true)) := by
  constructor
  · exact process_fail_fast_pipeline.2.1 wState wPkgUnknown 1 "B" (by decide) (by decide)
  · refine process_fail_fast_pipeline.2.2.2.2 wState wPkgHonest 1 "A" "1"
      (hexEncode [9]) (hexEncode [7]) (hexEncode wCt) (hexEncode [4])
      [3] [9] [7] [104, 105] [4] [104, 105]
      ?_ ?_ ?_ ?_ ?_ ?_ ?_ ?_ ?_ ?_ ?_ ?_ ?_ ?_ ?_ ?_ <;> decide

set_option maxRecDepth 10000 in
/-- C2 (counterexample): the AAD bytes are not byte-identical on the two
sides and the server-side AAD is not the claimed structured map — the
server reconstructs the flat string `AGENT:A-KEYID:1` while the agent of
`secure_agent.py` builds the serialized map
`{agent_id, key_id, ts, msg_id}`; the two byte strings differ, and a
package whose ciphertext was bound to the agent-side AAD is rejected by
the server with `(None, False)`. -/
theorem server_aad_differs_from_agent_aad :
    server_aad "A" "1" ≠
      agent_aad_serialized "A" 1 1700000000 "00000000-0000-0000-0000-000000000000" ∧
    process_secure_message wState wPkgAgentAad 1 = (wState, (none, false)) := by
  decide

/-- C2 (amended): the AAD the server binds into AEAD decryption is the
deterministic flat string `AGENT:{agent_id}-KEYID:{key_id}` — containing
agent id and key id but no freshness marker, and not byte-identical to the
structured AAD map serialized by `secure_agent.py`.  Decryption does
require the encryption-side AAD to be byte-identical to this reconstructed
string: any divergence fails closed with `(None, False)` (first conjunct),
and byte-identical AAD decrypts to the original plaintext (second
conjunct). -/
theorem aad_binding_fail_closed :
    (∀ (s : ServerState) (pkg : SecurePackage) (draw : Nat)
        (agent_id key_id_str kem_hex nonce_hex ct_hex sig_hex : String)
        (agent_pk kem_ct nonce_b pt aadE : Bytes),
      pkg.agent_id = some agent_id → agent_id ≠ "" →
      pkg.key_id = some key_id_str → key_id_str ≠ "" →
      lookupAgent s.registered_agents agent_id = some agent_pk →
      parseInt key_id_str = some (s.key_id : Int) →
      pkg.kem_ciphertext = some kem_hex → hexDecode kem_hex = some kem_ct →
      pkg.aes_nonce = some nonce_hex → hexDecode nonce_hex = some nonce_b →
      pkg.encrypted_data_with_tag = some ct_hex →
      hexDecode ct_hex = some (aesgcm_encrypt (sha256_trunc32 s.server_pk) nonce_b pt aadE) →
      pkg.signature = some sig_hex →
      aadE ≠ server_aad agent_id key_id_str →
      process_secure_message s pkg draw = (s, (none, false))) ∧
    (∀ (server_pk server_sk kem_ct nonce_b pt : Bytes) (agent_id key_id_str : String),
      decrypt_payload_with_kem server_pk server_sk
        ⟨kem_ct, nonce_b, aesgcm_encrypt (sha256_trunc32 server_pk) nonce_b pt
          (server_aad agent_id key_id_str)⟩ (server_aad agent_id key_id_str) = some pt) := by
  constructor
  · intro s pkg draw agent_id key_id_str kem_hex nonce_hex ct_hex sig_hex
      agent_pk kem_ct nonce_b pt aadE ha ha2 hk hk2 hreg hpi hkc hkcd hnc hncd
      hcc hccd hsg hne
    rw [process_gates_passed ha ha2 hk hk2 hreg hpi hkc hkcd hnc hncd hcc hccd hsg]
    refine processAfterGates_decrypt_fail ?_
    simp only [decrypt_payload_with_kem]
    exact aesgcm_decrypt_encrypt_ne_aad (Ne.symm hne)
  · intro server_pk server_sk kem_ct nonce_b pt agent_id key_id_str
    simp [decrypt_payload_with_kem, aesgcm_decrypt_encrypt]

/-- Witness for `aad_binding_fail_closed`: the package whose ciphertext was
bound to the divergent AAD `[0]` is rejected with `(None, False)`, while a
blob bound to the server's reconstructed AAD decrypts to the plaintext. -/
theorem aad_binding_fail_closed_witness :
    process_secure_message wState wPkgWrongAad 1 = (wState, (none, false)) ∧
    decrypt_payload_with_kem wPk [2]
      ⟨[9], [7], aesgcm_encrypt (sha256_trunc32 wPk) [7] [104, 105] (server_aad "A" "1")⟩
      (server_aad "A" "1") = some [104, 105] := by
  constructor
  · refine aad_binding_fail_closed.1 wState wPkgWrongAad 1 "A" "1"
      (hexEncode [9]) (hexEncode [7]) (hexEncode wCtWrongAad) (hexEncode [4])
      [3] [9] [7] [104, 105] [0]
      ?_ ?_ ?_ ?_ ?_ ?_ ?_ ?_ ?_ ?_ ?_ ?_ ?_ ?_ <;> decide
  · exact aad_binding_fail_closed.2 wPk [2] [9] [7] [104, 105] "A" "1"

/-- C10 (confirmed): when every gate passes (registration, key id,
decryption, signature verification) but the recovered plaintext bytes are
not valid UTF-8, `process_secure_message` returns `(None, False)` (the
decode error is swallowed by the catch-all handler, after the audit append
that precedes the decode); success additionally requires UTF-8
decodability, the returned value being the decoded plaintext. -/
theorem process_requires_utf8_plaintext :
    (∀ (s : ServerState) (pkg : SecurePackage) (draw : Nat)
        (agent_id key_id_str kem_hex nonce_hex ct_hex sig_hex : String)
        (agent_pk kem_ct nonce_b ct_b m sig_b : Bytes),
      pkg.agent_id = some agent_id → agent_id ≠ "" →
      pkg.key_id = some key_id_str → key_id_str ≠ "" →
      lookupAgent s.registered_agents agent_id = some agent_pk →
      parseInt key_id_str = some (s.key_id : Int) →
      pkg.kem_ciphertext = some kem_hex → hexDecode kem_hex = some kem_ct →
      pkg.aes_nonce = some nonce_hex → hexDecode nonce_hex = some nonce_b →
      pkg.encrypted_data_with_tag = some ct_hex → hexDecode ct_hex = some ct_b →
      pkg.signature = some sig_hex →
      decrypt_payload_with_kem s.server_pk s.server_sk ⟨kem_ct, nonce_b, ct_b⟩
        (server_aad agent_id key_id_str) = some m →
      hexDecode sig_hex = some sig_b → draw % 1000 ≠ 0 →
      utf8Decode m = none →
      process_secure_message s pkg draw =
        ({ s with audit_log := s.audit_log ++ [⟨agent_id, s.key_id, true, m.length⟩] },
          (none, false))) ∧
    (∀ (s : ServerState) (pkg : SecurePackage) (draw : Nat)
        (agent_id key_id_str kem_hex nonce_hex ct_hex sig_hex : String)
        (agent_pk kem_ct nonce_b ct_b m sig_b cps : Bytes),
      pkg.agent_id = some agent_id → agent_id ≠ "" →
      pkg.key_id = some key_id_str → key_id_str ≠ "" →
      lookupAgent s.registered_agents agent_id = some agent_pk →
      parseInt key_id_str = some (s.key_id : Int) →
      pkg.kem_ciphertext = some kem_hex → hexDecode kem_hex = some kem_ct →
      pkg.aes_nonce = some nonce_hex → hexDecode nonce_hex = some nonce_b →
      pkg.encrypted_data_with_tag = some ct_hex → hexDecode ct_hex = some ct_b →
      pkg.signature = some sig_hex →
      decrypt_payload_with_kem s.server_pk s.server_sk ⟨kem_ct, nonce_b, ct_b⟩
        (server_aad agent_id key_id_str) = some m →
      hexDecode sig_hex = some sig_b → draw % 1000 ≠ 0 →
      utf8Decode m = some cps →
      process_secure_message s pkg draw =
        ({ s with audit_log := s.audit_log ++ [⟨agent_id, s.key_id, true, m.length⟩] },
          (some cps, true))) := by
  constructor
  · intro s pkg draw agent_id key_id_str kem_hex nonce_hex ct_hex sig_hex
      agent_pk kem_ct nonce_b ct_b m sig_b ha ha2 hk hk2 hreg hpi hkc hkcd hnc hncd
      hcc hccd hsg hdec hsigd hdraw hut
    rw [process_gates_passed ha ha2 hk hk2 hreg hpi hkc hkcd hnc hncd hcc hccd hsg]
    exact processAfterGates_utf8_fail hdec hsigd hdraw hut
  · intro s pkg draw agent_id key_id_str kem_hex nonce_hex ct_hex sig_hex
      agent_pk kem_ct nonce_b ct_b m sig_b cps ha ha2 hk hk2 hreg hpi hkc hkcd hnc hncd
      hcc hccd hsg hdec hsigd hdraw hut
    rw [process_gates_passed ha ha2 hk hk2 hreg hpi hkc hkcd hnc hncd hcc hccd hsg]
    exact processAfterGates_success hdec hsigd hdraw hut

/-- Witness for `process_requires_utf8_plaintext`: the honest package
carrying the non-UTF-8 plaintext `[255]` passes every gate and returns
`(None, False)` with the audit entry kept. -/
theorem process_requires_utf8_plaintext_witness :
    process_secure_message wState wPkgFF 1 =
      ({ wState with audit_log := wState.audit_log ++
          [⟨"A", wState.key_id, true, ([255] : Bytes).length⟩] },
        (none, false)) := by
  refine process_requires_utf8_plaintext.1 wState wPkgFF 1 "A" "1"
    (hexEncode [9]) (hexEncode [7]) (hexEncode wCtFF) (hexEncode [4])
    [3] [9] [7] wCtFF [255] [4]
    ?_ ?_ ?_ ?_ ?_ ?_ ?_ ?_ ?_ ?_ ?_ ?_ ?_ ?_ ?_ ?_ ?_ <;> decide
